import Mathlib

/-!
Shallow embedding of the named-entity-recognition pipeline of
`pstexplorer` (`ner/main.py`): body resolution from competing encodings,
document assembly, entity aggregation and the ranked report.

Python strings are modelled as Lean `String` (sequences of characters);
`str.strip()` is modelled by `pyStrip` (drop Unicode whitespace at both
ends), slicing `s[:n]` by `pyTake`.  SQL `NULL`-able columns are
`Option`-typed fields; Python truthiness of an optional string (`None`
and `""` are falsy) is `optTruthy`.  The external libraries
`compressed_rtf.decompress` and `striprtf.rtf_to_text`, and the decoding
step, are abstract parameters collected in `RtfEnv` (fallible steps are
`Except`-valued; `bytes.decode(..., errors="replace")` never fails, so it
is a total function).  The spaCy entity extractor is an abstract function
`nlp : String → List (String × String)` returning (label, span-text)
pairs.
-/

namespace PstNer

/-- Whitespace test used by `pyStrip`, modelling Python `str.strip()`. -/
def isWS (c : Char) : Bool := c.isWhitespace

/-- Drop trailing elements satisfying `p`. -/
def dropTail (p : Char → Bool) (l : List Char) : List Char :=
  (l.reverse.dropWhile p).reverse

/-- `s.strip()` on the character list: drop whitespace at both ends. -/
def stripList (l : List Char) : List Char :=
  dropTail isWS (l.dropWhile isWS)

/-- Model of Python `s.strip()`: drop whitespace from both ends. -/
def pyStrip (s : String) : String :=
  String.mk (stripList s.data)

/-- Model of Python slicing `s[:n]`: the first `n` characters. -/
def pyTake (s : String) (n : Nat) : String :=
  String.mk (s.data.take n)

/-- The character class `[^>]` of the tag regex, as a Boolean predicate. -/
def notGt (c : Char) : Bool := c != '>'

/--
Scanner for `re.sub(r"<[^>]+>", " ", html)` on the character list:
at each `<`, the greedy `[^>]+` runs to the first later `>`; the match
succeeds when that run is non-empty and the `>` exists, and the whole
match is replaced by a single space; otherwise scanning resumes at the
next character.  The `fuel` argument only makes the recursion
structural; every call site supplies `fuel ≥ l.length`, where the `0`
fallback branch is unreachable.
-/
def html_strip_go (fuel : Nat) (l : List Char) : List Char :=
  match fuel, l with
  | _, [] => []
  | 0, l => l
  | fuel + 1, c :: rest =>
    if c = '<' then
      if rest.takeWhile notGt ≠ [] ∧ rest.dropWhile notGt ≠ [] then
        ' ' :: html_strip_go fuel (rest.dropWhile notGt).tail
      else
        c :: html_strip_go fuel rest
    else
      c :: html_strip_go fuel rest

/-- The tag-replacement scan at adequate fuel. -/
def html_strip_aux (l : List Char) : List Char :=
  html_strip_go l.length l

/-- `html_strip` from the source: strip markup tags, each replaced by
one space (`re.sub(r"<[^>]+>", " ", html)`). -/
def html_strip (html : String) : String :=
  String.mk (html_strip_aux html.data)

/-- `true` iff the list contains a substring `<`, then one or more
characters none of which is `>`, then `>`. -/
def containsTag (l : List Char) : Bool :=
  match l with
  | [] => false
  | c :: rest =>
    (c == '<' && !(rest.takeWhile notGt).isEmpty
              && !(rest.dropWhile notGt).isEmpty)
    || containsTag rest

/-- Abstract interface to the external rich-text machinery: the
compressed-RTF decompressor and the RTF-markup stripper may fail (raise),
the replacement-character byte decoding is total. -/
structure RtfEnv where
  decompress : List Nat → Except String (List Nat)
  decode : List Nat → String
  rtf_to_text : String → Except String String

/-- `rtf_blob_to_text` from the source: decompress, decode with
replacement, strip RTF; any failure anywhere yields `""`
(the `try ... except Exception: return ""`). -/
def rtf_blob_to_text (env : RtfEnv) (blob : List Nat) : String :=
  match env.decompress blob with
  | Except.error _ => ""
  | Except.ok rtf_bytes =>
    match env.rtf_to_text (env.decode rtf_bytes) with
    | Except.error _ => ""
    | Except.ok t => t

/-- One row of the `messages` table, as selected by the driver query. -/
structure Message where
  sender : Option String
  to_recipients : Option String
  subject : Option String
  body_text : Option String
  body_html : Option String
  body_rtf : Option (List Nat)
  message_class : String
deriving DecidableEq

/-- Python truthiness of an optional string: `None` and `""` are falsy. -/
def optTruthy : Option String → Option String
  | none => none
  | some s => if s = "" then none else some s

/-- Truthiness of an optional byte string: `None` and `b""` are falsy. -/
def optBytesTruthy : Option (List Nat) → Option (List Nat)
  | none => none
  | some b => if b = [] then none else some b

/-- The Body Resolver: the `if body_text / elif body_html / elif
body_rtf / else` chain of the driver loop. -/
def resolveBody (env : RtfEnv) (m : Message) : String :=
  match optTruthy m.body_text with
  | some t => t
  | none =>
    match optTruthy m.body_html with
    | some h => html_strip h
    | none =>
      match optBytesTruthy m.body_rtf with
      | some blob => rtf_blob_to_text env blob
      | none => ""

/-- The Document Assembler:
`" ".join(filter(None, [sender, to, subject, body[:8000]]))`. -/
def assemble (env : RtfEnv) (m : Message) : String :=
  String.intercalate " "
    (([m.sender, m.to_recipients, m.subject,
       some (pyTake (resolveBody env m) 8000)].filterMap optTruthy))

/-- Per-span cleaning in the aggregation loop: trim the span text, drop
it when the trimmed text is empty, key by (label, trimmed text). -/
def cleanEnt (e : String × String) : Option (String × String) :=
  if pyStrip e.2 = "" then none else some (e.1, pyStrip e.2)

/-- The cleaned entity occurrences one row contributes: `[]` when the
assembled text is empty after stripping (the `continue`), otherwise the
cleaned extractor output for the assembled text. -/
def rowEntities (env : RtfEnv) (nlp : String → List (String × String))
    (m : Message) : List (String × String) :=
  if pyStrip (assemble env m) = "" then []
  else (nlp (assemble env m)).filterMap cleanEnt

/-- `true` iff the extractor is invoked for this row (the row survives
the `if not text.strip(): continue` guard). -/
def extractorInvoked (env : RtfEnv) (m : Message) : Bool :=
  pyStrip (assemble env m) != ""

/-- The `Counter` state: an insertion-ordered association list from
(label, text) keys to counts. -/
def Counter : Type := List ((String × String) × Nat)

/-- `entities[key] += 1` on a `Counter`: bump the existing entry in
place, or append a fresh entry with count 1. -/
def counterAdd : Counter → (String × String) → Counter
  | [], k => [(k, 1)]
  | (k', n) :: rest, k =>
    if k' = k then (k', n + 1) :: rest else (k', n) :: counterAdd rest k

/-- Count lookup with default 0 (`Counter[key]`). -/
def countOf : Counter → (String × String) → Nat
  | [], _ => 0
  | (k', n) :: rest, k => if k' = k then n else countOf rest k

/-- The whole aggregation loop: for each row, for each cleaned entity
occurrence, bump the counter. -/
def aggregate (env : RtfEnv) (nlp : String → List (String × String))
    (rows : List Message) : Counter :=
  rows.foldl (fun c m => (rowEntities env nlp m).foldl counterAdd c) []

/-- Comparison used by the ranking: entry `a` precedes entry `b` when
`a`'s count is at least `b`'s. -/
def countGE (a b : (String × String) × Nat) : Prop := b.2 ≤ a.2

instance : DecidableRel countGE := fun a b => Nat.decLe b.2 a.2

instance : IsTotal ((String × String) × Nat) countGE :=
  ⟨fun a b => Nat.le_total b.2 a.2⟩

instance : IsTrans ((String × String) × Nat) countGE :=
  ⟨fun _ _ _ h1 h2 => Nat.le_trans h2 h1⟩

/-- `Counter.most_common(n)`: entries sorted by descending count (stable,
so ties keep insertion order), truncated to the first `n`. -/
def mostCommon (c : Counter) (n : Nat) : List ((String × String) × Nat) :=
  (List.insertionSort countGE c).take n

/-- The entries of the ranked report: `entities.most_common(100)`. -/
def reportEntries (env : RtfEnv) (nlp : String → List (String × String))
    (rows : List Message) : List ((String × String) × Nat) :=
  mostCommon (aggregate env nlp rows) 100

/-- The flattened stream of cleaned entity occurrences, in processing
order; the aggregation loop performs one `counterAdd` per element. -/
def occStream (env : RtfEnv) (nlp : String → List (String × String))
    (rows : List Message) : List (String × String) :=
  rows.flatMap (rowEntities env nlp)

/-- Row selection of the driver query: `message_class LIKE 'IPM.NOTE%'`
(SQLite `LIKE` is ASCII-case-insensitive) `OR message_class = 'IPM'
OR message_class = ''`. -/
def classMatch (mc : String) : Bool :=
  "IPM.NOTE".data.isPrefixOf (mc.data.map Char.toUpper)
    || mc == "IPM" || mc == ""

/-- The usage line `f"Usage: {sys.argv[0]} <database.db>"`. -/
def usageMsg (argv : List String) : String :=
  "Usage: " ++ argv.headD "" ++ " <database.db>"

/-- Right-align into a field of width `w` (Python `f"{s:>w}"`). -/
def padLeft (s : String) (w : Nat) : String :=
  String.mk (List.replicate (w - s.data.length) ' ') ++ s

/-- Left-align into a field of width `w` (Python `f"{s:<w}"`). -/
def padRight (s : String) (w : Nat) : String :=
  s ++ String.mk (List.replicate (w - s.data.length) ' ')

/-- One report line: `f"{count:6d}  {label:<12}  {text}"`. -/
def fmtLine (e : (String × String) × Nat) : String :=
  padLeft (toString e.2) 6 ++ "  " ++ padRight e.1.1 12 ++ "  " ++ e.1.2

/-- The header block: the blank line from the leading `\n`, the column
header, and the 60-dash separator. -/
def headerLines : List String :=
  ["", padLeft "Count" 6 ++ "  " ++ padRight "Label" 12 ++ "  Entity",
   String.mk (List.replicate 60 '-')]

/-- Observable outcome of one program run. -/
structure ProgOutput where
  exitCode : Nat
  stderrLines : List String
  stdoutLines : List String
deriving DecidableEq

/-- The `main` driver: the missing-argument guard, then row selection,
aggregation and the ranked report.  The database contents are a
parameter; the guard branch returns before they are touched. -/
def main (env : RtfEnv) (nlp : String → List (String × String))
    (argv : List String) (db : List Message) : ProgOutput :=
  if argv.length < 2 then
    { exitCode := 1, stderrLines := [usageMsg argv], stdoutLines := [] }
  else
    let rows := db.filter (fun m => classMatch m.message_class)
    { exitCode := 0,
      stderrLines := ["Processing " ++ toString rows.length ++ " messages..."],
      stdoutLines :=
        headerLines ++ (mostCommon (aggregate env nlp rows) 100).map fmtLine }

/-- Spec-side formula for claim C1, from the claim's words: the number
of documents in the corpus for which the Extractor returned a span with
the key's label whose trimmed text is the key's text. -/
def specDocCount (env : RtfEnv) (nlp : String → List (String × String))
    (rows : List Message) (k : String × String) : Nat :=
  rows.countP (fun m =>
    !(pyStrip (assemble env m) == "") &&
    (nlp (assemble env m)).any (fun e => e.1 == k.1 && pyStrip e.2 == k.2))

/-- Spec-side formula for the amended claim C1: the total number of span
occurrences, across all extracted documents, with the key's label and
trimmed text. -/
def specOccCount (env : RtfEnv) (nlp : String → List (String × String))
    (rows : List Message) (k : String × String) : Nat :=
  (rows.map (fun m =>
    if pyStrip (assemble env m) = "" then 0
    else (nlp (assemble env m)).countP
      (fun e => e.1 == k.1 && pyStrip e.2 == k.2))).sum

/-- Key/count invariant of the aggregate (claim C9): every key's text is
non-empty and equal to its own trim, every count is at least 1. -/
def aggWF (c : Counter) : Bool :=
  c.all (fun e => e.1.2 != "" && pyStrip e.1.2 == e.1.2 && decide (1 ≤ e.2))

/-! ### Trimming lemmas -/

theorem dropWhile_dropWhile_self {α} (p : α → Bool) (l : List α) :
    (l.dropWhile p).dropWhile p = l.dropWhile p := by
  induction l with
  | nil => rfl
  | cons c t ih =>
    by_cases h : p c
    · simp [List.dropWhile_cons, h, ih]
    · simp [List.dropWhile_cons, h]

theorem dropWhile_head?_not {α} (p : α → Bool) (l : List α) {c : α}
    (h : (l.dropWhile p).head? = some c) : p c = false := by
  have hm := List.head?_dropWhile_not p l
  rw [h] at hm
  exact hm

theorem dropWhile_eq_self_of_head {α} (p : α → Bool) (l : List α) {c : α}
    (hh : l.head? = some c) (hc : p c = false) : l.dropWhile p = l := by
  cases l with
  | nil => rfl
  | cons a t =>
    have : a = c := by simpa using hh
    subst this
    simp [List.dropWhile_cons, hc]

theorem dropWhile_eq_nil_of_all {α} (p : α → Bool) (l : List α)
    (h : ∀ a ∈ l, p a = true) : l.dropWhile p = [] := by
  induction l with
  | nil => rfl
  | cons c t ih =>
    simp only [List.dropWhile_cons, h c (List.mem_cons_self c t), if_pos]
    exact ih fun a ha => h a (List.mem_cons_of_mem _ ha)

theorem dropTail_dropTail (l : List Char) :
    dropTail isWS (dropTail isWS l) = dropTail isWS l := by
  simp [dropTail, List.reverse_reverse, dropWhile_dropWhile_self]

theorem dropTail_head? (l : List Char) {c : Char}
    (hh : l.head? = some c) (hc : isWS c = false) :
    dropTail isWS l = [] ∨ (dropTail isWS l).head? = some c := by
  cases l with
  | nil => simp at hh
  | cons a t =>
    have ha : a = c := by simpa using hh
    subst ha
    unfold dropTail
    rw [List.reverse_cons, List.dropWhile_append]
    by_cases he : (t.reverse.dropWhile isWS).isEmpty
    · simp [he, List.dropWhile_cons, hc]
    · right
      simp only [he, if_neg, Bool.not_eq_true]
      rw [List.reverse_append]
      simp [if_neg, he]

theorem stripList_idem (l : List Char) :
    stripList (stripList l) = stripList l := by
  unfold stripList
  rcases ha : (l.dropWhile isWS).head? with _ | c
  · -- the left-trimmed list is empty, everything collapses
    have : l.dropWhile isWS = [] := by
      cases h : l.dropWhile isWS
      · rfl
      · rw [h] at ha; simp at ha
    simp [this, dropTail]
  · have hc : isWS c = false := dropWhile_head?_not isWS l ha
    rcases dropTail_head? (l.dropWhile isWS) ha hc with hnil | hhd
    · rw [hnil]; rfl
    · rw [dropWhile_eq_self_of_head isWS _ hhd hc, dropTail_dropTail]

theorem pyStrip_idem (s : String) : pyStrip (pyStrip s) = pyStrip s := by
  simp [pyStrip, stripList_idem]

/-! ### Tag-stripping lemmas -/

theorem all_of_dropWhile_eq_nil {α} (p : α → Bool) (l : List α)
    (h : l.dropWhile p = []) : ∀ a ∈ l, p a = true := by
  induction l with
  | nil => intro a ha; cases ha
  | cons c t ih =>
    intro a ha
    by_cases hc : p c
    · rw [List.dropWhile_cons, if_pos hc] at h
      rcases List.mem_cons.mp ha with rfl | ha'
      · exact hc
      · exact ih h a ha'
    · rw [List.dropWhile_cons, if_neg hc] at h
      cases h

theorem html_strip_go_no_gt (fuel : Nat) (l : List Char) (h : '>' ∉ l) :
    html_strip_go fuel l = l := by
  induction fuel generalizing l with
  | zero => cases l <;> rfl
  | succ fuel ih =>
    cases l with
    | nil => rfl
    | cons c rest =>
      have hrest : '>' ∉ rest := fun hm => h (List.mem_cons_of_mem _ hm)
      have hdw : rest.dropWhile notGt = [] :=
        dropWhile_eq_nil_of_all notGt rest fun a ha => by
          have hne : a ≠ '>' := fun he => hrest (he ▸ ha)
          simp [notGt, hne]
      by_cases hc : c = '<'
      · subst hc
        simp [html_strip_go, hdw, ih rest hrest]
      · simp [html_strip_go, hc, ih rest hrest]

theorem html_strip_go_gt_head (fuel : Nat) (t : List Char) :
    (html_strip_go fuel ('>' :: t)).head? = some '>' := by
  cases fuel with
  | zero => rfl
  | succ fuel => simp [html_strip_go]

theorem html_strip_go_nil (fuel : Nat) : html_strip_go fuel [] = [] := by
  cases fuel <;> rfl

theorem html_strip_go_cons (fuel : Nat) (c : Char) (rest : List Char) :
    html_strip_go (fuel + 1) (c :: rest) =
      if c = '<' then
        if rest.takeWhile notGt ≠ [] ∧ rest.dropWhile notGt ≠ [] then
          ' ' :: html_strip_go fuel (rest.dropWhile notGt).tail
        else c :: html_strip_go fuel rest
      else c :: html_strip_go fuel rest := rfl

theorem containsTag_go (fuel : Nat) : ∀ l : List Char, l.length ≤ fuel →
    containsTag (html_strip_go fuel l) = false := by
  induction fuel with
  | zero =>
    intro l h
    have hl : l = [] := List.length_eq_zero.mp (Nat.le_zero.mp h)
    subst hl; rfl
  | succ fuel ih =>
    intro l h
    cases l with
    | nil => rfl
    | cons c rest =>
      have hlen : rest.length ≤ fuel := by
        simp only [List.length_cons] at h; omega
      by_cases hc : c = '<'
      · subst hc
        by_cases hm : rest.takeWhile notGt ≠ [] ∧ rest.dropWhile notGt ≠ []
        · -- the tag regex matches here: the match becomes a space and
          -- scanning resumes after the closing bracket
          have hlen2 : (rest.dropWhile notGt).tail.length ≤ fuel := by
            have h1 : (rest.dropWhile notGt).tail.length
                ≤ (rest.dropWhile notGt).length := by
              cases rest.dropWhile notGt <;> simp
            have h2 : (rest.dropWhile notGt).length ≤ rest.length :=
              (List.dropWhile_sublist notGt).length_le
            omega
          have hgo : html_strip_go (fuel + 1) ('<' :: rest)
              = ' ' :: html_strip_go fuel (rest.dropWhile notGt).tail := by
            rw [html_strip_go_cons, if_pos rfl, if_pos hm]
          rw [hgo]
          have hsp : (' ' == '<') = false := by decide
          simp only [containsTag, hsp, Bool.false_and, Bool.false_or]
          exact ih _ hlen2
        · by_cases htw : rest.takeWhile notGt = []
          · cases rest with
            | nil =>
              have hgo : html_strip_go (fuel + 1) ['<'] = ['<'] := by
                rw [html_strip_go_cons, if_pos rfl, if_neg hm, html_strip_go_nil]
              rw [hgo]; decide
            | cons d rest' =>
              have hd : d = '>' := by
                by_cases hnd : notGt d
                · simp [List.takeWhile_cons, hnd] at htw
                · simpa [notGt] using hnd
              subst hd
              -- the unmatched bracket is immediately followed by a
              -- closing bracket in the output, so it opens no tag
              have hgo : html_strip_go (fuel + 1) ('<' :: '>' :: rest')
                  = '<' :: html_strip_go fuel ('>' :: rest') := by
                rw [html_strip_go_cons, if_pos rfl, if_neg hm]
              obtain ⟨x', hx'⟩ := List.head?_eq_some_iff.mp
                (html_strip_go_gt_head fuel rest')
              have hct : containsTag ('>' :: x') = false := by
                have hi := ih _ hlen
                rwa [hx'] at hi
              have hctx : containsTag x' = false := by
                simp only [containsTag, Bool.or_eq_false_iff] at hct
                exact hct.2
              rw [hgo, hx']
              simp [containsTag, hct, hctx, List.takeWhile_cons, notGt]
          · have hdw : rest.dropWhile notGt = [] := by
              by_contra hdw0
              exact hm ⟨htw, hdw0⟩
            -- no closing bracket remains after this point
            have hng : '>' ∉ rest := fun hmem => by
              have hall := all_of_dropWhile_eq_nil notGt rest hdw '>' hmem
              simp [notGt] at hall
            have hfix : html_strip_go fuel rest = rest :=
              html_strip_go_no_gt fuel rest hng
            have hgo : html_strip_go (fuel + 1) ('<' :: rest)
                = '<' :: rest := by
              rw [html_strip_go_cons, if_pos rfl, if_neg hm, hfix]
            have hct : containsTag rest = false := by
              have hi := ih rest hlen
              rwa [hfix] at hi
            rw [hgo]
            simp [containsTag, hct, hdw]
      · have hgo : html_strip_go (fuel + 1) (c :: rest)
            = c :: html_strip_go fuel rest := by
          rw [html_strip_go_cons, if_neg hc]
        have hcb : (c == '<') = false := by simpa using hc
        rw [hgo]
        simp [containsTag, hcb, ih rest hlen]

theorem html_strip_go_fix (fuel : Nat) : ∀ l : List Char,
    containsTag l = false → html_strip_go fuel l = l := by
  induction fuel with
  | zero => intro l _; cases l <;> rfl
  | succ fuel ih =>
    intro l hl
    cases l with
    | nil => rfl
    | cons c rest =>
      simp only [containsTag, Bool.or_eq_false_iff] at hl
      obtain ⟨hhead, hrest⟩ := hl
      by_cases hc : c = '<'
      · subst hc
        have hcond : ¬(rest.takeWhile notGt ≠ [] ∧
            rest.dropWhile notGt ≠ []) := by
          rintro ⟨h1, h2⟩
          simp [List.isEmpty_eq_false.mpr h1,
            List.isEmpty_eq_false.mpr h2] at hhead
        have hgo : html_strip_go (fuel + 1) ('<' :: rest)
            = '<' :: html_strip_go fuel rest := by
          rw [html_strip_go_cons, if_pos rfl, if_neg hcond]
        rw [hgo, ih rest hrest]
      · have hgo : html_strip_go (fuel + 1) (c :: rest)
            = c :: html_strip_go fuel rest := by
          rw [html_strip_go_cons, if_neg hc]
        rw [hgo, ih rest hrest]

theorem containsTag_strip_aux (l : List Char) :
    containsTag (html_strip_aux l) = false :=
  containsTag_go l.length l (Nat.le_refl _)

theorem html_strip_aux_idem (l : List Char) :
    html_strip_aux (html_strip_aux l) = html_strip_aux l :=
  html_strip_go_fix _ _ (containsTag_strip_aux l)

/-! ### Counter lemmas -/

theorem countOf_counterAdd (c : Counter) (kk k : String × String) :
    countOf (counterAdd c kk) k
      = countOf c k + (if kk = k then 1 else 0) := by
  induction c with
  | nil =>
    by_cases h : kk = k
    · subst h; simp [counterAdd, countOf]
    · simp [counterAdd, countOf, h]
  | cons e rest ih =>
    obtain ⟨k0, n⟩ := e
    by_cases h0 : k0 = kk
    · subst h0
      simp only [counterAdd, if_pos rfl]
      by_cases hk : k0 = k
      · subst hk; simp [countOf]
      · simp [countOf, hk]
    · simp only [counterAdd, if_neg h0]
      by_cases hk : k0 = k
      · subst hk
        have h0' : ¬kk = k0 := fun he => h0 he.symm
        simp [countOf, h0']
      · simp [countOf, hk, ih]

theorem countOf_foldlAdd (ks : List (String × String)) :
    ∀ (c : Counter) (k : String × String),
      countOf (ks.foldl counterAdd c) k
        = countOf c k + ks.countP (fun e => e == k) := by
  induction ks with
  | nil => intro c k; simp [List.countP_nil]
  | cons k0 ks ih =>
    intro c k
    rw [List.foldl_cons, ih, countOf_counterAdd, List.countP_cons]
    have hbe : (if (k0 == k) = true then 1 else 0)
        = if k0 = k then 1 else 0 := by
      by_cases h : k0 = k <;> simp [h]
    rw [hbe]
    omega

theorem foldl_counterAdd_flatMap (f : Message → List (String × String))
    (rows : List Message) : ∀ init : Counter,
      rows.foldl (fun c m => (f m).foldl counterAdd c) init
        = (rows.flatMap f).foldl counterAdd init := by
  induction rows with
  | nil => intro init; rfl
  | cons m rows ih =>
    intro init
    rw [List.foldl_cons, ih, List.flatMap_cons, List.foldl_append]

theorem countOf_aggregate (env : RtfEnv)
    (nlp : String → List (String × String)) (rows : List Message)
    (k : String × String) :
    countOf (aggregate env nlp rows) k
      = (occStream env nlp rows).countP (fun e => e == k) := by
  unfold aggregate occStream
  rw [foldl_counterAdd_flatMap, countOf_foldlAdd]
  simp [countOf]

theorem countP_occStream (env : RtfEnv)
    (nlp : String → List (String × String)) (rows : List Message)
    (p : String × String → Bool) :
    (occStream env nlp rows).countP p
      = (rows.map (fun m => (rowEntities env nlp m).countP p)).sum := by
  unfold occStream
  simp only [List.flatMap, List.countP_flatten, List.map_map]
  rfl

theorem rowEntities_countP_eq (env : RtfEnv)
    (nlp : String → List (String × String)) (m : Message)
    (k : String × String) (hk : k.2 ≠ "") :
    (rowEntities env nlp m).countP (fun e => e == k)
      = if pyStrip (assemble env m) = "" then 0
        else (nlp (assemble env m)).countP
          (fun e => e.1 == k.1 && pyStrip e.2 == k.2) := by
  unfold rowEntities
  by_cases hskip : pyStrip (assemble env m) = ""
  · simp [hskip]
  · rw [if_neg hskip, if_neg hskip, List.countP_filterMap]
    apply List.countP_congr
    intro e _
    unfold cleanEnt
    by_cases he : pyStrip e.2 = ""
    · have hbe : (pyStrip e.2 == k.2) = false := by
        rw [he]
        exact beq_false_of_ne fun hh => hk hh.symm
      simp [he, hbe]
      exact fun _ hh => hk hh.symm
    · obtain ⟨k1, k2⟩ := k
      simp only at hk
      simp [he, beq_iff_eq, Prod.ext_iff]

theorem countOf_aggregate_spec (env : RtfEnv)
    (nlp : String → List (String × String)) (rows : List Message)
    (k : String × String) (hk : k.2 ≠ "") :
    countOf (aggregate env nlp rows) k = specOccCount env nlp rows k := by
  rw [countOf_aggregate, countP_occStream]
  unfold specOccCount
  congr 1
  apply List.map_congr_left
  intro m _
  exact rowEntities_countP_eq env nlp m k hk

theorem countOf_aggregate_perm (env : RtfEnv)
    (nlp : String → List (String × String)) {rows rows' : List Message}
    (hp : List.Perm rows rows') (k : String × String) :
    countOf (aggregate env nlp rows') k
      = countOf (aggregate env nlp rows) k := by
  rw [countOf_aggregate, countOf_aggregate,
    countP_occStream, countP_occStream]
  exact ((hp.map _).sum_eq).symm

/-! ### Well-formedness of the aggregate -/

/-- A key the aggregation loop may insert: non-empty and self-trimmed. -/
def goodKey (k : String × String) : Prop := k.2 ≠ "" ∧ pyStrip k.2 = k.2

theorem rowEntities_goodKey (env : RtfEnv)
    (nlp : String → List (String × String)) (m : Message)
    {k : String × String} (hk : k ∈ rowEntities env nlp m) : goodKey k := by
  unfold rowEntities at hk
  by_cases hskip : pyStrip (assemble env m) = ""
  · rw [if_pos hskip] at hk; cases hk
  · rw [if_neg hskip] at hk
    obtain ⟨e, _, he⟩ := List.mem_filterMap.mp hk
    unfold cleanEnt at he
    by_cases h2 : pyStrip e.2 = ""
    · rw [if_pos h2] at he; cases he
    · rw [if_neg h2] at he
      injection he with he'
      cases he'
      exact ⟨h2, pyStrip_idem e.2⟩

theorem occStream_goodKey (env : RtfEnv)
    (nlp : String → List (String × String)) (rows : List Message)
    {k : String × String} (hk : k ∈ occStream env nlp rows) : goodKey k := by
  unfold occStream at hk
  obtain ⟨m, _, hm⟩ := List.mem_flatMap.mp hk
  exact rowEntities_goodKey env nlp m hm

theorem aggWF_counterAdd (c : Counter) (k : String × String)
    (hk : goodKey k) (hc : aggWF c = true) :
    aggWF (counterAdd c k) = true := by
  induction c with
  | nil =>
    simp [counterAdd, aggWF, hk.1, hk.2]
  | cons e rest ih =>
    obtain ⟨k0, n⟩ := e
    rw [aggWF, List.all_cons, Bool.and_eq_true] at hc
    obtain ⟨he, hrest⟩ := hc
    simp only [Bool.and_eq_true] at he
    obtain ⟨⟨he1, he2⟩, he3⟩ := he
    by_cases h0 : k0 = k
    · subst h0
      have hca : counterAdd ((k0, n) :: rest) k0
          = if k0 = k0 then (k0, n + 1) :: rest
            else (k0, n) :: counterAdd rest k0 := rfl
      rw [if_pos rfl] at hca
      rw [hca]
      simp only [aggWF, List.all_cons, Bool.and_eq_true]
      exact ⟨⟨⟨he1, he2⟩, by simp⟩, hrest⟩
    · simp only [counterAdd, if_neg h0, aggWF, List.all_cons,
        Bool.and_eq_true]
      exact ⟨⟨⟨he1, he2⟩, he3⟩, ih hrest⟩

theorem aggWF_foldl (ks : List (String × String)) :
    ∀ c : Counter, (∀ k ∈ ks, goodKey k) → aggWF c = true →
      aggWF (ks.foldl counterAdd c) = true := by
  induction ks with
  | nil => intro c _ hc; exact hc
  | cons k0 ks ih =>
    intro c hks hc
    rw [List.foldl_cons]
    exact ih _ (fun k hk => hks k (List.mem_cons_of_mem _ hk))
      (aggWF_counterAdd c k0 (hks k0 (List.mem_cons_self _ _)) hc)

/-! ### Concrete fixtures -/

/-- Fixture: an environment whose decompressor always fails. -/
def failEnv : RtfEnv :=
  { decompress := fun _ => Except.error "compressed_rtf: invalid header",
    decode := fun _ => "",
    rtf_to_text := fun s => Except.ok s }

/-- Fixture: an environment whose rich-text pipeline succeeds and yields
a fixed text. -/
def okEnv : RtfEnv :=
  { decompress := fun _ => Except.ok [],
    decode := fun _ => "rtf fallback text",
    rtf_to_text := fun s => Except.ok s }

/-- Fixture: a message with a plain-text body and populated html/rtf
fields (which precedence must ignore). -/
def msgText : Message :=
  { sender := none, to_recipients := none, subject := none,
    body_text := some "Alice met Bob in Paris.",
    body_html := some "<b>ignored</b>", body_rtf := some [1, 2, 3],
    message_class := "IPM.NOTE" }

/-- Fixture: a second plain-text message. -/
def msgA : Message :=
  { sender := some "bob@acme.example", to_recipients := none,
    subject := some "minutes",
    body_text := some "Alice wrote the minutes.",
    body_html := none, body_rtf := none, message_class := "IPM" }

/-- Fixture: extractor returning one padded person span. -/
def nlpOne : String → List (String × String) :=
  fun _ => [("PERSON", " Alice ")]

/-- Fixture: extractor returning the same padded span twice for every
document. -/
def nlpDup : String → List (String × String) :=
  fun _ => [("PERSON", " Alice "), ("PERSON", " Alice ")]

/-! ### Claims -/

/--
C1 (amended): for every key whose text is non-empty, the final aggregate
count for (label, text) equals the total number of span OCCURRENCES
across the corpus for which the Extractor returned that label and that
whitespace-trimmed text (not the number of documents), and this count is
the same for every permutation of the message processing order.
-/
theorem C1_aggregate_counts_occurrences_perm_invariant
    (env : RtfEnv) (nlp : String → List (String × String))
    (rows rows' : List Message) (k : String × String)
    (hk : k.2 ≠ "") (hp : List.Perm rows rows') :
    countOf (aggregate env nlp rows) k = specOccCount env nlp rows k ∧
    countOf (aggregate env nlp rows') k
      = countOf (aggregate env nlp rows) k :=
  ⟨countOf_aggregate_spec env nlp rows k hk,
    countOf_aggregate_perm env nlp hp k⟩

/--
C1 counterexample: a single document for which the Extractor returns the
same (label, trimmed text) span twice has aggregate count 2, while the
number of documents with such a span is 1 — the aggregate counts
occurrences, not documents, so the claim as stated fails.
-/
theorem C1_counterexample :
    countOf (aggregate failEnv nlpDup [msgText]) ("PERSON", "Alice") = 2 ∧
    specDocCount failEnv nlpDup [msgText] ("PERSON", "Alice") = 1 ∧
    ¬ countOf (aggregate failEnv nlpDup [msgText]) ("PERSON", "Alice")
        = specDocCount failEnv nlpDup [msgText] ("PERSON", "Alice") := by
  decide

/-- C1 witness: the amended claim instantiated on a two-message corpus
and its transposition. -/
theorem C1_witness :
    ((("PERSON", "Alice") : String × String).2 ≠ "" ∧
      List.Perm [msgText, msgA] [msgA, msgText]) ∧
    (countOf (aggregate failEnv nlpOne [msgText, msgA]) ("PERSON", "Alice")
        = specOccCount failEnv nlpOne [msgText, msgA] ("PERSON", "Alice") ∧
      countOf (aggregate failEnv nlpOne [msgA, msgText]) ("PERSON", "Alice")
        = countOf (aggregate failEnv nlpOne [msgText, msgA])
            ("PERSON", "Alice")) :=
  ⟨⟨by decide, List.Perm.swap msgA msgText []⟩,
    C1_aggregate_counts_occurrences_perm_invariant failEnv nlpOne
      [msgText, msgA] [msgA, msgText] ("PERSON", "Alice")
      (by decide) (List.Perm.swap msgA msgText [])⟩

/--
C2: for every message whose body-text field is present and non-empty,
the Body Resolver returns that string unchanged, whatever the body-html
and body-rtf fields contain (they are arbitrary in `m`, and the
rich-text environment is arbitrary).
-/
theorem C2_body_text_returned_unchanged (env : RtfEnv) (m : Message)
    (t : String) (hbt : m.body_text = some t) (hne : t ≠ "") :
    resolveBody env m = t := by
  unfold resolveBody
  rw [hbt]
  simp [optTruthy, hne]

/-- C2 witness: a message with all three body fields populated resolves
to its plain-text body. -/
theorem C2_witness :
    msgText.body_text = some "Alice met Bob in Paris." ∧
    ("Alice met Bob in Paris." : String) ≠ "" ∧
    resolveBody failEnv msgText = "Alice met Bob in Paris." :=
  ⟨rfl, by decide,
    C2_body_text_returned_unchanged failEnv msgText _ rfl (by decide)⟩

/--
C3: for every byte sequence on which the decompressor fails (the blob is
not a valid compressed rich-text container), `rtf_blob_to_text` returns
the empty string; the function is total, so no error propagates and no
partial output is produced.
-/
theorem C3_invalid_rtf_container_empty (env : RtfEnv) (blob : List Nat)
    (err : String) (hde : env.decompress blob = Except.error err) :
    rtf_blob_to_text env blob = "" := by
  unfold rtf_blob_to_text
  rw [hde]

/-- C3 witness: a concrete blob under the always-failing decompressor. -/
theorem C3_witness :
    failEnv.decompress [0, 1, 2]
      = Except.error "compressed_rtf: invalid header" ∧
    rtf_blob_to_text failEnv [0, 1, 2] = "" :=
  ⟨rfl, C3_invalid_rtf_container_empty failEnv [0, 1, 2] _ rfl⟩

/-- Fixture for the C4 counterexample: body-text absent, body-html
present but empty, body-rtf present and decodable. -/
def msgEmptyHtml : Message :=
  { sender := none, to_recipients := none, subject := none,
    body_text := none, body_html := some "", body_rtf := some [7],
    message_class := "" }

/--
C4 counterexample: for a message whose body-text is absent and whose
body-html is present but EMPTY, the resolver does not return the
tag-stripped html — it falls through to the rich-text branch, which is
used and produces the rtf text.
-/
theorem C4_counterexample :
    msgEmptyHtml.body_text = none ∧
    msgEmptyHtml.body_html = some "" ∧
    resolveBody okEnv msgEmptyHtml = "rtf fallback text" ∧
    ¬ resolveBody okEnv msgEmptyHtml = html_strip "" := by
  decide

/--
C4 (amended): for every message whose body-text is absent or empty and
whose body-html is present AND NON-EMPTY, the resolver returns the
body-html with every markup tag replaced by a single space, and the
body-rtf branch is not used (the result is independent of the rich-text
environment and of the rtf field, both arbitrary here).
-/
theorem C4_html_fallback (env : RtfEnv) (m : Message) (h : String)
    (hbt : m.body_text = none ∨ m.body_text = some "")
    (hbh : m.body_html = some h) (hne : h ≠ "") :
    resolveBody env m = html_strip h := by
  unfold resolveBody
  rcases hbt with hbt | hbt <;> rw [hbt, hbh] <;> simp [optTruthy, hne]

/-- Fixture for the C4 witness: html-only body with an rtf field that
must be ignored. -/
def msgHtml : Message :=
  { sender := none, to_recipients := none, subject := none,
    body_text := none, body_html := some "<b>Acme Corp</b>",
    body_rtf := some [7], message_class := "" }

/-- C4 witness: the amended html fallback on a concrete message. -/
theorem C4_witness :
    (msgHtml.body_text = none ∨ msgHtml.body_text = some "") ∧
    msgHtml.body_html = some "<b>Acme Corp</b>" ∧
    ("<b>Acme Corp</b>" : String) ≠ "" ∧
    resolveBody okEnv msgHtml = html_strip "<b>Acme Corp</b>" :=
  ⟨Or.inl rfl, rfl, by decide,
    C4_html_fallback okEnv msgHtml _ (Or.inl rfl) rfl (by decide)⟩

/--
C5: the ranked report contains at most 100 entries and the occurrence
counts of the emitted entries are non-increasing from first to last.
-/
theorem C5_report_bounded_and_sorted (env : RtfEnv)
    (nlp : String → List (String × String)) (rows : List Message) :
    (reportEntries env nlp rows).length ≤ 100 ∧
    (reportEntries env nlp rows).Pairwise countGE := by
  constructor
  · unfold reportEntries mostCommon
    exact List.length_take_le _ _
  · unfold reportEntries mostCommon
    exact List.Pairwise.sublist (List.take_sublist _ _)
      (List.sorted_insertionSort countGE _)

/--
C6: for every message whose assembled document text is empty or
whitespace-only, the extractor is not invoked (the row fails the guard,
and the row's contribution is `[]` for EVERY extractor) and the message
contributes zero entities.
-/
theorem C6_blank_document_skipped (env : RtfEnv)
    (nlp : String → List (String × String)) (m : Message)
    (hblank : pyStrip (assemble env m) = "") :
    extractorInvoked env m = false ∧ rowEntities env nlp m = [] := by
  constructor
  · unfold extractorInvoked
    simp [hblank]
  · unfold rowEntities
    rw [if_pos hblank]

/-- Fixture: a message whose assembled text is whitespace-only. -/
def msgBlank : Message :=
  { sender := none, to_recipients := some "   ", subject := none,
    body_text := some "  ", body_html := none, body_rtf := none,
    message_class := "IPM.NOTE" }

/-- C6 witness: a whitespace-only document is skipped. -/
theorem C6_witness :
    pyStrip (assemble failEnv msgBlank) = "" ∧
    (extractorInvoked failEnv msgBlank = false ∧
      rowEntities failEnv nlpDup msgBlank = []) :=
  ⟨by decide, C6_blank_document_skipped failEnv nlpDup msgBlank (by decide)⟩

/--
C7: for every input string, the output of `html_strip` contains no
substring of the form `<`, one or more characters none of which is `>`,
then `>`.
-/
theorem C7_html_strip_leaves_no_tags (html : String) :
    containsTag (html_strip html).data = false :=
  containsTag_strip_aux html.data

/--
C8: started without the input-store path argument, the program emits the
usage line on the error stream and exits with status 1 (non-zero), and
the outcome is independent of the database contents — no rows are read.
-/
theorem C8_missing_argument_usage_exit (env : RtfEnv)
    (nlp : String → List (String × String)) (argv : List String)
    (db db' : List Message) (hargv : argv.length < 2) :
    main env nlp argv db
      = { exitCode := 1, stderrLines := [usageMsg argv],
          stdoutLines := [] } ∧
    (main env nlp argv db).exitCode ≠ 0 ∧
    main env nlp argv db = main env nlp argv db' := by
  refine ⟨?_, ?_, ?_⟩ <;> simp [main, hargv]

/-- C8 witness: a bare program name and two different databases. -/
theorem C8_witness :
    (["ner.py"] : List String).length < 2 ∧
    (main failEnv nlpDup ["ner.py"] []
        = { exitCode := 1, stderrLines := [usageMsg ["ner.py"]],
            stdoutLines := [] } ∧
      (main failEnv nlpDup ["ner.py"] []).exitCode ≠ 0 ∧
      main failEnv nlpDup ["ner.py"] []
        = main failEnv nlpDup ["ner.py"] [msgText]) :=
  ⟨by decide, C8_missing_argument_usage_exit failEnv nlpDup ["ner.py"]
    [] [msgText] (by decide)⟩

/--
C9: after every aggregator update (the state reached after any prefix of
the occurrence stream) and in the final aggregate, every key has
non-empty, self-trimmed text and a count of at least 1.
-/
theorem C9_aggregate_invariant (env : RtfEnv)
    (nlp : String → List (String × String)) (rows : List Message)
    (t : Nat) :
    aggWF (((occStream env nlp rows).take t).foldl counterAdd []) = true ∧
    aggWF (aggregate env nlp rows) = true := by
  constructor
  · apply aggWF_foldl
    · intro k hk
      exact occStream_goodKey env nlp rows (List.mem_of_mem_take hk)
    · rfl
  · unfold aggregate
    rw [foldl_counterAdd_flatMap]
    apply aggWF_foldl
    · intro k hk
      exact occStream_goodKey env nlp rows hk
    · rfl

/-- C10: `html_strip` is idempotent. -/
theorem C10_html_strip_idempotent (h : String) :
    html_strip (html_strip h) = html_strip h :=
  congrArg String.mk (html_strip_aux_idem h.data)

end PstNer
